import Mathlib

/-!
Verification of the npm compromised-package detector (src/npm_detector.py)
against its natural-language specification.

The Python source is shallowly embedded: Python dicts become association
lists (insertion order preserved, key update in place), subprocess results
become explicit (exit code, stdout) parameters, the filesystem becomes
explicit tree-shaped data, and code that can raise an uncaught exception
returns an Except value whose error constructor marks the raised exception.
-/

namespace NpmDetector

/-- Python str.startswith: the candidate is a character-list prefix. -/
def pyStartsWith (s p : String) : Bool :=
  List.isPrefixOf p.data s.data

/-- Python str.strip(): drop whitespace from both ends (executable on the
character list; Lean's Char.isWhitespace covers the ASCII whitespace that
occurs in CSV cells and npm output). -/
def pyStrip (s : String) : String :=
  String.mk (((s.data.dropWhile Char.isWhitespace).reverse.dropWhile
    Char.isWhitespace).reverse)

/-- Python dict assignment d[k] = v: update in place when the key exists
(keeping its position), otherwise append at the end (insertion order). -/
def pyInsert {α : Type} (d : List (String × α)) (k : String) (v : α) :
    List (String × α) :=
  if d.any (fun q => q.1 == k) then
    d.map (fun q => if q.1 == k then (k, v) else q)
  else d ++ [(k, v)]

/-- One row of the compromised-package CSV after loading
(load_impacted_packages builds dicts with these two keys). -/
structure Impacted where
  package_name : String
  version : String
deriving DecidableEq, Repr

/-- One finding row as assembled by compare (src/npm_detector.py lines 134-139). -/
structure Finding where
  package_name : String
  installed_version : String
  impacted_version_from_csv : String
  location : String
deriving DecidableEq, Repr

/-- Embedding of compare (src/npm_detector.py lines 128-140).  The installed
dict is an association list in insertion order; impacted_set is the set of
impacted names (membership in the name list); expected is Python
next((i.get("version", "") for i in impacted if i["package_name"] == name), ""),
the first entry in load order with that name. -/
def compare (impacted : List Impacted) (installed : List (String × String))
    (location : String) : List Finding :=
  let impactedSet : List String := impacted.map (fun i => i.package_name)
  installed.foldl (fun acc p =>
    if p.1 ∈ impactedSet then
      acc ++ [⟨p.1, p.2,
        ((impacted.find? (fun i => i.package_name == p.1)).map
          (fun i => i.version)).getD "",
        location⟩]
    else acc) []

/-- Spec-side description of what one installed pair contributes: a Finding
exactly when the name equals (case-sensitively) the name of some compromised
entry, carrying the first such entry's declared version. -/
def compareSpecRow (impacted : List Impacted) (location : String)
    (p : String × String) : Option Finding :=
  match impacted.find? (fun i => i.package_name == p.1) with
  | some i => some ⟨p.1, p.2, i.version, location⟩
  | none => none

lemma compare_foldl (impacted : List Impacted) (location : String) :
    ∀ (installed : List (String × String)) (acc : List Finding),
      installed.foldl (fun acc p =>
        if p.1 ∈ impacted.map (fun i => i.package_name) then
          acc ++ [⟨p.1, p.2,
            ((impacted.find? (fun i => i.package_name == p.1)).map
              (fun i => i.version)).getD "",
            location⟩]
        else acc) acc
      = acc ++ installed.filterMap (compareSpecRow impacted location) := by
  intro installed
  induction installed with
  | nil => intro acc; simp
  | cons p tl ih =>
    intro acc
    rw [List.foldl_cons, List.filterMap_cons]
    rcases hf : impacted.find? (fun i => i.package_name == p.1) with _ | i
    · have hm : p.1 ∉ impacted.map (fun i => i.package_name) := by
        intro hmem
        rcases List.mem_map.mp hmem with ⟨i, hi, hic⟩
        have hnone := List.find?_eq_none.mp hf i hi
        simp [hic] at hnone
      rw [if_neg hm]
      simp only [compareSpecRow, hf]
      exact ih acc
    · have hpi : (i.package_name == p.1) = true := by
        have := List.find?_some hf
        simpa using this
      have hm : p.1 ∈ impacted.map (fun i => i.package_name) :=
        List.mem_map.mpr ⟨i, List.mem_of_find?_eq_some hf, eq_of_beq hpi⟩
      rw [if_pos hm]
      simp only [compareSpecRow, hf, Option.map_some, Option.getD_some]
      rw [ih]
      simp

/-- C1: for every compromised list, installed mapping and location label,
the Matcher emits one Finding exactly for each installed package whose name
is an exact, case-sensitive string match of some compromised entry's name,
in installed order; each Finding carries the installed version, the version
of the first compromised entry (in load order) bearing that name, and the
location label; installed names absent from the compromised list contribute
nothing. -/
theorem c1_compare_matches (impacted : List Impacted)
    (installed : List (String × String)) (location : String) :
    compare impacted installed location
      = installed.filterMap (compareSpecRow impacted location) := by
  unfold compare
  simpa using compare_foldl impacted location installed []

/-! ### Compromise List Loader (load_impacted_packages, lines 33-48)

The CSV file is embedded as its header row (csv.DictReader fieldnames)
plus its data rows, each a list of cell strings. -/

/-- Python str.lower() (executable on the character list; ASCII case
mapping, which covers the recognized header variants). -/
def pyLower (s : String) : String :=
  String.mk (s.data.map Char.toLower)

/-- Python dict comprehension from line 37, lowered-header to original header,
looked up at a key: the dict keeps the LAST header whose lowercase equals the
key (later duplicate assignments overwrite). -/
def headerFor (fns : List String) (key : String) : Option String :=
  (fns.filter (fun h => pyLower h == key)).getLast?

/-- Line 38: headers.get("package_name") or headers.get("name") or
"package_name".  A successful lookup returns an original header whose
lowercase is the non-empty key, hence a non-empty (truthy) string, so the
Python or-chain is a first-defined chain. -/
def nameKeyOf (fns : List String) : String :=
  (headerFor fns "package_name").getD ((headerFor fns "name").getD "package_name")

/-- Line 39: headers.get("version") or "version". -/
def versionKeyOf (fns : List String) : String :=
  (headerFor fns "version").getD "version"

/-- Index at which csv.DictReader stores the value for a fieldname: the dict
is built by dict(zip(fieldnames, row)) with missing trailing fieldnames set
to None, so a duplicated fieldname holds the value of its LAST occurrence. -/
def lastIdxOf (fns : List String) (key : String) : Option Nat :=
  ((List.range fns.length).filter (fun i => fns.getD i "" == key)).getLast?

/-- row.get(key, default) on a DictReader row: outer none means the key is
not a fieldname at all (Python returns the .get default); some none means
the fieldname is present but the row was too short, so its value is None
(restval); some (some v) is an actual cell. -/
def dictGetRow (fns row : List String) (key : String) : Option (Option String) :=
  match lastIdxOf fns key with
  | none => none
  | some i => if i < row.length then some (some (row.getD i "")) else some none

/-- The string Python ends up with for row.get(key, "") or "" (used for the
version field, where a None cell is collapsed to "" by the or). -/
def rowFieldD (fns row : List String) (key : String) : String :=
  match dictGetRow fns row key with
  | some (some v) => v
  | _ => ""

/-- The loop of load_impacted_packages (lines 40-47).  The name field is
row.get(name_key, "").strip(): when the cell is Python None (fieldname
present, row too short) the .strip() call raises AttributeError, which
nothing catches; that abort is the error case.  Rows whose stripped name is
empty are skipped, the rest are emitted in file order. -/
def loadRowsAux (fns : List String) (nk vk : String) :
    List (List String) → Except String (List Impacted)
  | [] => Except.ok []
  | r :: rest =>
    (match dictGetRow fns r nk with
      | none => Except.ok ""
      | some none => Except.error "AttributeError: NoneType has no attribute strip"
      | some (some v) => Except.ok v).bind (fun raw =>
        if pyStrip raw = "" then loadRowsAux fns nk vk rest
        else (loadRowsAux fns nk vk rest).map
          (fun tl => ⟨pyStrip raw, pyStrip (rowFieldD fns r vk)⟩ :: tl))

/-- Embedding of load_impacted_packages (lines 33-48). -/
def load_impacted_packages (fns : List String) (rows : List (List String)) :
    Except String (List Impacted) :=
  loadRowsAux fns (nameKeyOf fns) (versionKeyOf fns) rows

lemma getLast?_mem {α : Type} {l : List α} {a : α} (h : l.getLast? = some a) :
    a ∈ l := by
  induction l with
  | nil => simp at h
  | cons x xs ih =>
    cases xs with
    | nil =>
      simp [List.getLast?] at h
      simp [h]
    | cons y ys =>
      rw [List.getLast?_cons_cons] at h
      exact List.mem_cons_of_mem x (ih h)

lemma lastIdxOf_lt {fns : List String} {key : String} {i : Nat}
    (h : lastIdxOf fns key = some i) : i < fns.length := by
  unfold lastIdxOf at h
  have hi := getLast?_mem h
  have := List.mem_filter.mp hi
  exact List.mem_range.mp this.1

/-- C3: for every tabular (rectangular) compromised-list file with a header
row, the Loader returns exactly the entries of the data rows whose
package-name field is non-empty after trimming, in file order, each with
the trimmed name and the (possibly empty) trimmed version, where the name
column is the recognized header variant located case-insensitively
(nameKeyOf) and the version column is versionKeyOf.  In particular a file
whose rows all have an empty name yields zero entries. -/
theorem c3_loader (fns : List String) (rows : List (List String))
    (hrect : ∀ r ∈ rows, r.length = fns.length) :
    load_impacted_packages fns rows = Except.ok (rows.filterMap (fun r =>
      if pyStrip (rowFieldD fns r (nameKeyOf fns)) = "" then none
      else some ⟨pyStrip (rowFieldD fns r (nameKeyOf fns)),
                 pyStrip (rowFieldD fns r (versionKeyOf fns))⟩)) := by
  unfold load_impacted_packages
  induction rows with
  | nil => rfl
  | cons r rest ih =>
    have hr : r.length = fns.length := hrect r (by simp)
    have htail : ∀ q ∈ rest, q.length = fns.length := by
      intro q hq; exact hrect q (by simp [hq])
    rw [loadRowsAux, List.filterMap_cons]
    have hname : (match dictGetRow fns r (nameKeyOf fns) with
        | none => Except.ok ""
        | some none =>
            Except.error "AttributeError: NoneType has no attribute strip"
        | some (some v) => Except.ok v)
        = Except.ok (rowFieldD fns r (nameKeyOf fns)) := by
      unfold rowFieldD
      cases hk : dictGetRow fns r (nameKeyOf fns) with
      | none => rfl
      | some o =>
        cases o with
        | none =>
          exfalso
          cases hi : lastIdxOf fns (nameKeyOf fns) with
          | none => simp [dictGetRow, hi] at hk
          | some i =>
            have hlt : i < r.length := by rw [hr]; exact lastIdxOf_lt hi
            simp [dictGetRow, hi, hlt] at hk
        | some v => rfl
    rw [hname]
    dsimp only [Except.bind]
    by_cases hempty : pyStrip (rowFieldD fns r (nameKeyOf fns)) = ""
    · rw [ih htail]
      simp [hempty, Except.map]
    · rw [ih htail]
      simp [hempty, Except.map]

/-- C3 witness: a concrete rectangular file with a cased header variant, a
padded name, an empty-name row, and an empty version. -/
theorem c3_loader_witness :
    (∀ r ∈ [["  left-pad  ", " 1.0.0 "], ["   ", "2.0"], ["evil", ""]],
      r.length = ["Package_Name", "Version"].length) ∧
    load_impacted_packages ["Package_Name", "Version"]
        [["  left-pad  ", " 1.0.0 "], ["   ", "2.0"], ["evil", ""]]
      = Except.ok
        ([["  left-pad  ", " 1.0.0 "], ["   ", "2.0"], ["evil", ""]].filterMap
          (fun r =>
            if pyStrip (rowFieldD ["Package_Name", "Version"] r
                  (nameKeyOf ["Package_Name", "Version"])) = "" then none
            else some ⟨pyStrip (rowFieldD ["Package_Name", "Version"] r
                  (nameKeyOf ["Package_Name", "Version"])),
                pyStrip (rowFieldD ["Package_Name", "Version"] r
                  (versionKeyOf ["Package_Name", "Version"]))⟩)) :=
  ⟨by decide,
    c3_loader ["Package_Name", "Version"]
      [["  left-pad  ", " 1.0.0 "], ["   ", "2.0"], ["evil", ""]] (by decide)⟩

/-! ### Report Writer (write_findings_csv, lines 143-149)

The report file is embedded at row granularity: a file is its list of
CSV records, each a list of cell strings (the csv module's serialization
of one record per row is the stdlib collaborator).  Opening with mode "w"
truncates, so any prior content is discarded. -/

/-- The fixed DictWriter fieldnames (line 146). -/
def headerRow : List String :=
  ["package_name", "installed_version", "impacted_version_from_csv", "location"]

/-- writer.writerow(row) for one finding dict: the four values in
fieldnames order. -/
def findingRow (f : Finding) : List String :=
  [f.package_name, f.installed_version, f.impacted_version_from_csv, f.location]

/-- Embedding of write_findings_csv (lines 143-149): writeheader first,
then one writerow per finding in sequence order. -/
def write_findings_csv (findings : List Finding) : List (List String) :=
  findings.foldl (fun acc f => acc ++ [findingRow f]) [headerRow]

/-- The report file after a run: mode "w" truncates, so the result ignores
whatever the file held before (none = file absent, parent directories are
created). -/
def writeReport (_prior : Option (List (List String))) (findings : List Finding) :
    List (List String) :=
  write_findings_csv findings

lemma foldl_append_rows {α β : Type} (h : α → β) :
    ∀ (l : List α) (acc : List β),
      l.foldl (fun a x => a ++ [h x]) acc = acc ++ l.map h := by
  intro l
  induction l with
  | nil => intro acc; simp
  | cons x tl ih =>
    intro acc
    rw [List.foldl_cons, List.map_cons, ih]
    simp

lemma write_findings_csv_eq (findings : List Finding) :
    write_findings_csv findings = headerRow :: findings.map findingRow := by
  unfold write_findings_csv
  rw [foldl_append_rows]
  rfl

/-- C4: for every prior report state and every findings sequence, the
Report Writer produces exactly the fixed four-column header row followed
by one row per Finding in sequence order, regardless of the prior report
content (overwrite); with zero findings the file is exactly the header
row. -/
theorem c4_report_writer (prior : Option (List (List String)))
    (findings : List Finding) :
    writeReport prior findings = headerRow :: findings.map findingRow ∧
    writeReport prior [] = [headerRow] := by
  constructor
  · exact write_findings_csv_eq findings
  · rfl

/-- Re-parsing one written record with the same column order. -/
def parseFindingRow : List String → Option Finding
  | [a, b, c, d] => some ⟨a, b, c, d⟩
  | _ => none

/-- Re-parsing the written tabular content: the header row must be the
fixed header, and every remaining record must have exactly the four
columns, read back in the same column order. -/
def parse_report : List (List String) → Option (List Finding)
  | [] => none
  | hdr :: rest => if hdr = headerRow then rest.mapM parseFindingRow else none

/-- C5: round-trip — writing any findings sequence to the report and
re-parsing the written tabular content with the same column order
reconstructs exactly the original sequence of Findings. -/
theorem c5_report_roundtrip (prior : Option (List (List String)))
    (findings : List Finding) :
    parse_report (writeReport prior findings) = some findings := by
  unfold writeReport
  rw [write_findings_csv_eq]
  simp only [parse_report, if_true]
  induction findings with
  | nil => rfl
  | cons f tl ih =>
    rw [List.map_cons, List.mapM_cons]
    have hrow : parseFindingRow (findingRow f) = some f := rfl
    rw [hrow]
    simp only [Option.bind_eq_bind, Option.some_bind] at *
    rw [ih]
    rfl

/-! ### Project Discoverer (discover_package_json_roots, lines 67-77)

A supplied root is embedded after expanduser/resolve as: whether the
resolved path exists, and the list of package.json paths rglob finds
under it (in rglob order), each given by its parts tuple. -/

/-- One root directory argument, post-resolution. -/
structure RootDir where
  ex : Bool
  manifests : List (List String)
deriving DecidableEq, Repr

/-- Embedding of discover_package_json_roots (lines 67-77): skip roots
that do not exist; skip manifests with a node_modules path segment;
append the parent (parts without the final component) of every other
manifest, in order.  No deduplication is performed. -/
def discover_package_json_roots (roots : List RootDir) : List (List String) :=
  roots.foldl (fun acc r =>
    if r.ex then
      r.manifests.foldl (fun a p =>
        if p.contains "node_modules" then a else a ++ [p.dropLast]) acc
    else acc) []

lemma discover_inner (l : List (List String)) :
    ∀ (acc : List (List String)),
      l.foldl (fun a p =>
        if p.contains "node_modules" then a else a ++ [p.dropLast]) acc
      = acc ++ l.filterMap (fun p =>
          if p.contains "node_modules" then none else some p.dropLast) := by
  induction l with
  | nil => intro acc; simp
  | cons p tl ih =>
    intro acc
    rw [List.foldl_cons, List.filterMap_cons]
    by_cases hp : p.contains "node_modules" = true
    · rw [if_pos hp, if_pos hp, ih]
    · rw [if_neg hp, if_neg hp, ih]
      simp

/-- C8 counterexample: supplying the same existing root twice makes its
project parent directory appear twice in the output — the output is not a
distinct set, refuting the no-duplicates part of the claim. -/
theorem c8_discover_counterexample :
    discover_package_json_roots
        [⟨true, [["home", "proj", "package.json"]]⟩,
         ⟨true, [["home", "proj", "package.json"]]⟩]
      = [["home", "proj"], ["home", "proj"]] ∧
    ¬ List.Nodup (discover_package_json_roots
        [⟨true, [["home", "proj", "package.json"]]⟩,
         ⟨true, [["home", "proj", "package.json"]]⟩]) := by
  constructor
  · rfl
  · decide

/-- C8 amended: the Project Discoverer returns, concatenated over the
supplied roots in order, the parent directories of the discovered
manifests in discovery order — excluding every manifest with a
dependency-directory (node_modules) segment anywhere in its path and
silently skipping roots that do not exist.  Parent directories are NOT
deduplicated: a parent appears once per discovered manifest, so it can
repeat when supplied roots overlap. -/
theorem c8_discover_amended (roots : List RootDir) :
    discover_package_json_roots roots
      = (roots.map (fun r =>
          if r.ex then
            r.manifests.filterMap (fun p =>
              if p.contains "node_modules" then none else some p.dropLast)
          else [])).flatten := by
  unfold discover_package_json_roots
  suffices h : ∀ (acc : List (List String)),
      roots.foldl (fun acc r =>
        if r.ex then
          r.manifests.foldl (fun a p =>
            if p.contains "node_modules" then a else a ++ [p.dropLast]) acc
        else acc) acc
      = acc ++ (roots.map (fun r =>
          if r.ex then
            r.manifests.filterMap (fun p =>
              if p.contains "node_modules" then none else some p.dropLast)
          else [])).flatten by
    simpa using h []
  induction roots with
  | nil => intro acc; simp
  | cons r tl ih =>
    intro acc
    rw [List.foldl_cons, List.map_cons, List.flatten_cons]
    by_cases hr : r.ex = true
    · rw [if_pos hr, if_pos hr, discover_inner, ih]
      simp
    · rw [if_neg hr, if_neg hr, ih]
      simp

/-! ### JSON parsing of package-manager output

json.loads is the stdlib collaborator; it is embedded as an executable
JSON parser (fuel-indexed recursive descent over the character list).
It returns none exactly where json.loads raises json.JSONDecodeError. -/

/-- JSON values.  Numbers keep their raw token (the detector never reads
a numeric field). -/
inductive Json where
  | null : Json
  | bool : Bool → Json
  | num : String → Json
  | str : String → Json
  | arr : List Json → Json
  | obj : List (String × Json) → Json
deriving Repr

/-- JSON whitespace. -/
def jsonWs (c : Char) : Bool :=
  c = ' ' || c = '\t' || c = '\n' || c = '\r'

def skipWs (cs : List Char) : List Char :=
  cs.dropWhile jsonWs

def hexVal (c : Char) : Option Nat :=
  if c.isDigit then some (c.toNat - '0'.toNat)
  else if 'a' ≤ c ∧ c ≤ 'f' then some (c.toNat - 'a'.toNat + 10)
  else if 'A' ≤ c ∧ c ≤ 'F' then some (c.toNat - 'A'.toNat + 10)
  else none

/-- Characters a number token may use (scanned permissively; the raw token
is kept). -/
def numChar (c : Char) : Bool :=
  c.isDigit || c = '-' || c = '+' || c = '.' || c = 'e' || c = 'E'

/-- Parse the body of a JSON string after the opening quote, handling the
JSON escapes; returns the decoded characters and the remaining input. -/
def pStrAux : Nat → List Char → Option (List Char × List Char)
  | 0, _ => none
  | _ + 1, [] => none
  | f + 1, c :: rest =>
    if c = '"' then some ([], rest)
    else if c = '\\' then
      match rest with
      | [] => none
      | e :: rest2 =>
        if e = '"' then (pStrAux f rest2).map (fun pr => ('"' :: pr.1, pr.2))
        else if e = '\\' then (pStrAux f rest2).map (fun pr => ('\\' :: pr.1, pr.2))
        else if e = '/' then (pStrAux f rest2).map (fun pr => ('/' :: pr.1, pr.2))
        else if e = 'b' then
          (pStrAux f rest2).map (fun pr => (Char.ofNat 8 :: pr.1, pr.2))
        else if e = 'f' then
          (pStrAux f rest2).map (fun pr => (Char.ofNat 12 :: pr.1, pr.2))
        else if e = 'n' then (pStrAux f rest2).map (fun pr => ('\n' :: pr.1, pr.2))
        else if e = 'r' then (pStrAux f rest2).map (fun pr => ('\r' :: pr.1, pr.2))
        else if e = 't' then (pStrAux f rest2).map (fun pr => ('\t' :: pr.1, pr.2))
        else if e = 'u' then
          match rest2 with
          | h1 :: h2 :: h3 :: h4 :: rest3 =>
            match hexVal h1, hexVal h2, hexVal h3, hexVal h4 with
            | some a, some b, some c2, some d =>
              (pStrAux f rest3).map (fun pr =>
                (Char.ofNat (((a * 16 + b) * 16 + c2) * 16 + d) :: pr.1, pr.2))
            | _, _, _, _ => none
          | _ => none
        else none
    else (pStrAux f rest).map (fun pr => (c :: pr.1, pr.2))

/-- Parse the members of a JSON object, positioned at the first key
(not at whitespace-'}'), given a parser pV for values. -/
def pMembers (pV : List Char → Option (Json × List Char)) :
    Nat → List Char → Option (List (String × Json) × List Char)
  | 0, _ => none
  | g + 1, cs =>
    match skipWs cs with
    | '"' :: rest =>
      match pStrAux (rest.length + 1) rest with
      | none => none
      | some (k, r1) =>
        match skipWs r1 with
        | ':' :: r2 =>
          match pV r2 with
          | none => none
          | some (v, r3) =>
            match skipWs r3 with
            | ',' :: r4 =>
              match pMembers pV g r4 with
              | none => none
              | some (ms, r5) => some ((String.mk k, v) :: ms, r5)
            | '}' :: r4 => some ([(String.mk k, v)], r4)
            | _ => none
        | _ => none
    | _ => none

/-- Parse the elements of a JSON array, positioned at the first element. -/
def pElems (pV : List Char → Option (Json × List Char)) :
    Nat → List Char → Option (List Json × List Char)
  | 0, _ => none
  | g + 1, cs =>
    match pV cs with
    | none => none
    | some (v, r1) =>
      match skipWs r1 with
      | ',' :: r2 =>
        match pElems pV g r2 with
        | none => none
        | some (xs, r3) => some (v :: xs, r3)
      | ']' :: r2 => some ([v], r2)
      | _ => none

/-- Parse one JSON value (recursive descent; the fuel bounds nesting and
always suffices when it exceeds the input length). -/
def pVal : Nat → List Char → Option (Json × List Char)
  | 0, _ => none
  | f + 1, cs0 =>
    let cs := skipWs cs0
    if cs.take 4 = ['t', 'r', 'u', 'e'] then some (Json.bool true, cs.drop 4)
    else if cs.take 5 = ['f', 'a', 'l', 's', 'e'] then
      some (Json.bool false, cs.drop 5)
    else if cs.take 4 = ['n', 'u', 'l', 'l'] then some (Json.null, cs.drop 4)
    else
      match cs with
      | '{' :: rest =>
        (match skipWs rest with
         | '}' :: r2 => some (Json.obj [], r2)
         | _ =>
           match pMembers (pVal f) (f + 1) rest with
           | some (ms, r2) => some (Json.obj ms, r2)
           | none => none)
      | '[' :: rest =>
        (match skipWs rest with
         | ']' :: r2 => some (Json.arr [], r2)
         | _ =>
           match pElems (pVal f) (f + 1) rest with
           | some (xs, r2) => some (Json.arr xs, r2)
           | none => none)
      | '"' :: rest =>
        (match pStrAux (rest.length + 1) rest with
         | some (s, r2) => some (Json.str (String.mk s), r2)
         | none => none)
      | c :: _ =>
        if c.isDigit || c = '-' then
          match cs.span numChar with
          | (tok, rest2) =>
            if tok.isEmpty then none else some (Json.num (String.mk tok), rest2)
        else none
      | [] => none

/-- json.loads: exactly one JSON value, surrounded only by whitespace;
none models a raised json.JSONDecodeError. -/
def loads (s : String) : Option Json :=
  match pVal (s.length + 2) s.data with
  | some (v, rest) => if (skipWs rest).isEmpty then some v else none
  | none => none

/-- Lookup in the Python dict a parsed JSON object denotes: a duplicated
key holds its last value. -/
def objLookup (kvs : List (String × Json)) (key : String) : Option Json :=
  ((kvs.filter (fun q => q.1 == key)).getLast?).map (fun q => q.2)

/-- The pairs of the Python dict a parsed JSON object denotes: first
occurrence keeps its position, a later duplicate overwrites the value. -/
def pyDictPairs (kvs : List (String × Json)) : List (String × Json) :=
  kvs.foldl (fun acc kv => pyInsert acc kv.1 kv.2) []

/-- Python truthiness of a decoded JSON value (used by the
`or` after data.get("dependencies", ...)).  Numbers are kept as raw
tokens, so the common zero literals are listed. -/
def jsonFalsy : Json → Bool
  | Json.null => true
  | Json.bool b => !b
  | Json.num s => s == "0" || s == "-0" || s == "0.0" || s == "-0.0"
  | Json.str s => s == ""
  | Json.arr xs => xs.isEmpty
  | Json.obj kvs => kvs.isEmpty

/-- info.get("version", "") for one dependency entry: raises
AttributeError when the entry info is not an object.  The detector only
ever meets string versions; a non-string version field is out of the
model scope and collapses to "". -/
def getVersionStr (info : Json) : Except String String :=
  match info with
  | Json.obj kvs =>
    match objLookup kvs "version" with
    | some (Json.str s) => Except.ok s
    | some _ => Except.ok ""
    | none => Except.ok ""
  | _ => Except.error "AttributeError: get"

/-- data.get("dependencies", {}) or {} followed by the dict comprehension
{name: info.get("version", "") for name, info in deps.items()}
(lines 63-64 and 124-125).  Errors are uncaught AttributeError raises. -/
def extract_deps (data : Json) : Except String (List (String × String)) :=
  match data with
  | Json.obj kvs =>
    let depsField := (objLookup kvs "dependencies").getD (Json.obj [])
    let deps := if jsonFalsy depsField then Json.obj [] else depsField
    (match deps with
     | Json.obj dkvs =>
       (pyDictPairs dkvs).mapM (fun kv =>
         (getVersionStr kv.2).map (fun v => (kv.1, v)))
     | _ => Except.error "AttributeError: items")
  | _ => Except.error "AttributeError: get"

/-- out.find("{"): index of the first opening brace, none for Python -1. -/
def braceIdx (s : String) : Option Nat :=
  s.data.findIdx? (fun c => c == '{')

/-- The shared npm-listing handling of get_global_npm_list (lines 51-64)
and the npm fallback of get_local_npm_list (lines 113-125), whose bodies
are textually identical: given the subprocess exit code and stripped
stdout, return {} when the call failed with no output; otherwise strict
json.loads (empty output stands for {}), on json.JSONDecodeError retry
from the first brace — where a second json.loads failure is NOT caught
and the raised json.JSONDecodeError aborts the caller (the Except.error
case) — and return {} when there is no brace at all. -/
def parse_npm_listing (code : Int) (out : String) :
    Except String (List (String × String)) :=
  if code ≠ 0 ∧ out = "" then Except.ok []
  else
    match (if out = "" then some (Json.obj []) else loads out) with
    | some d => extract_deps d
    | none =>
      match braceIdx out with
      | some i =>
        match loads (String.mk (out.data.drop i)) with
        | some d => extract_deps d
        | none => Except.error "json.JSONDecodeError"
      | none => Except.ok []

/-- Embedding of get_global_npm_list (lines 51-64). -/
def get_global_npm_list (code : Int) (out : String) :
    Except String (List (String × String)) :=
  parse_npm_listing code out

/-! ### Local enumerator (get_local_npm_list, lines 80-125)

The node_modules directory is embedded as none when absent (is_dir
false), or the list of its immediate entries in iteration order. -/

/-- A parsed package.json manifest: the fields the detector reads. -/
structure Meta where
  name : Option String
  version : Option String
deriving DecidableEq, Repr

/-- A nested entry of a scoped (@-named) directory.  manifest is the
state of sub/package.json: none — not a file; some none — json.load (or
the later attribute access) raises and the except swallows it; some
(some m) — parsed fields. -/
structure NMSub where
  name : String
  manifest : Option (Option Meta)
deriving DecidableEq, Repr

/-- An immediate entry of node_modules. -/
structure NMEntry where
  name : String
  isDir : Bool
  manifest : Option (Option Meta)
  subs : List NMSub
deriving DecidableEq, Repr

/-- The manifest read shared by both branches (lines 89-98 and 100-109):
if the package.json file exists and parses, yield
(meta.get("name", fallback), meta.get("version", "")); a missing file or
a swallowed exception yields nothing. -/
def readManifest (fallbackName : String) (mf : Option (Option Meta)) :
    Option (String × String) :=
  match mf with
  | some (some m) => some (m.name.getD fallbackName, m.version.getD "")
  | some none => none
  | none => none

def subRead (s : NMSub) : Option (String × String) :=
  readManifest s.name s.manifest

/-- The contribution of one node_modules entry to the deps dict
(loop body, lines 84-109): dot-named entries are skipped; @-named
directories are expanded one level and each nested manifest read;
other entries have their own manifest read. -/
def entryContrib (e : NMEntry) : List (String × String) :=
  if pyStartsWith e.name "." then []
  else if e.isDir && pyStartsWith e.name "@" then e.subs.filterMap subRead
  else
    match readManifest e.name e.manifest with
    | some kv => [kv]
    | none => []

/-- The deps dict after the manifest scan of all node_modules entries. -/
def scanEntries (entries : List NMEntry) : List (String × String) :=
  entries.foldl (fun acc e =>
    (entryContrib e).foldl (fun a kv => pyInsert a kv.1 kv.2) acc) []

/-- Embedding of get_local_npm_list (lines 80-125): when node_modules is
a directory and the manifest scan found anything, return it directly;
otherwise fall back to the npm ls subprocess (its exit code and stripped
stdout are the last two parameters).  The Bool records whether the
subprocess fallback ran. -/
def get_local_npm_list (nm : Option (List NMEntry)) (code : Int) (out : String) :
    Except String (List (String × String) × Bool) :=
  match nm with
  | some entries =>
    let deps := scanEntries entries
    if deps.isEmpty then (parse_npm_listing code out).map (fun d => (d, true))
    else Except.ok (deps, false)
  | none => (parse_npm_listing code out).map (fun d => (d, true))

/-- C2 (failing evaluation): an npm listing whose output carries leading
warning text containing a brace followed by invalid JSON makes both
enumeration points raise an uncaught json.JSONDecodeError instead of
returning an empty mapping — the strict parse fails, the retry from the
first brace parses "\x7boops", fails again, and nothing catches it. -/
theorem c2_parse_abort :
    get_global_npm_list 0 "warning: \x7boops" = Except.error "json.JSONDecodeError"
    ∧ get_local_npm_list none 0 "warning: \x7boops"
      = Except.error "json.JSONDecodeError" := by
  constructor
  · rfl
  · rfl

/-- C6: whenever the dependency directory exists and manifest reading
yields at least one package, the local enumerator returns exactly that
manifest-derived mapping and does not invoke the package manager (the
invocation flag is false and the result does not depend on the
subprocess outcome); the subprocess fallback runs only when the
directory is absent or the manifest scan yields zero packages. -/
theorem c6_manifest_first (entries : List NMEntry) (code : Int) (out : String) :
    (scanEntries entries ≠ [] →
      get_local_npm_list (some entries) code out
        = Except.ok (scanEntries entries, false)) ∧
    (scanEntries entries = [] →
      get_local_npm_list (some entries) code out
        = (parse_npm_listing code out).map (fun d => (d, true))) ∧
    get_local_npm_list none code out
      = (parse_npm_listing code out).map (fun d => (d, true)) := by
  refine ⟨?_, ?_, rfl⟩
  · intro h
    have hne : (scanEntries entries).isEmpty = false := by
      cases hs : scanEntries entries with
      | nil => exact absurd hs h
      | cons a l => rfl
    simp [get_local_npm_list, hne]
  · intro h
    simp [get_local_npm_list, h]

/-- C6 witness: one ordinary entry foo with a readable manifest; the
enumerator returns it even though the subprocess outcome (exit 1, junk
output) would parse to nothing. -/
theorem c6_manifest_first_witness :
    scanEntries [⟨"foo", true, some (some ⟨some "foo", some "1.2.3"⟩), []⟩] ≠ []
    ∧ get_local_npm_list
        (some [⟨"foo", true, some (some ⟨some "foo", some "1.2.3"⟩), []⟩]) 1 "junk"
      = Except.ok
          (scanEntries [⟨"foo", true, some (some ⟨some "foo", some "1.2.3"⟩), []⟩],
           false) :=
  ⟨by decide,
   (c6_manifest_first [⟨"foo", true, some (some ⟨some "foo", some "1.2.3"⟩), []⟩]
      1 "junk").1 (by decide)⟩

lemma pyStartsWith_at_not_dot (s : String) (h : pyStartsWith s "@" = true) :
    pyStartsWith s "." = false := by
  unfold pyStartsWith at h ⊢
  have h1 : "@".data = ['@'] := rfl
  have h2 : ".".data = ['.'] := rfl
  rw [h1] at h
  rw [h2]
  cases hs : s.data with
  | nil => rw [hs] at h; simp [List.isPrefixOf] at h
  | cons c tl =>
    rw [hs] at h
    simp [List.isPrefixOf] at h ⊢
    intro hc
    rw [← hc] at h
    simp at h

/-- C7: every dependency-directory entry that is a directory and whose
name is prefixed with the scope marker is expanded one extra level: its
contribution to the mapping is exactly the manifest read of each nested
entry (keyed by the nested manifest name field, with the nested directory
name as fallback), and the scope directory itself contributes no package
of its own. -/
theorem c7_scoped_descend (e : NMEntry) (hdir : e.isDir = true)
    (hat : pyStartsWith e.name "@" = true) :
    entryContrib e = e.subs.filterMap subRead := by
  unfold entryContrib
  rw [pyStartsWith_at_not_dot e.name hat, hdir, hat]
  simp

/-- C7 witness: the spec example — node_modules/@scope/bar/package.json
declaring name "@scope/bar", version "2.0.0". -/
theorem c7_scoped_descend_witness :
    ((⟨"@scope", true, none,
        [⟨"bar", some (some ⟨some "@scope/bar", some "2.0.0"⟩)⟩]⟩ : NMEntry).isDir
        = true
      ∧ pyStartsWith
          (⟨"@scope", true, none,
            [⟨"bar", some (some ⟨some "@scope/bar", some "2.0.0"⟩)⟩]⟩ :
              NMEntry).name "@" = true)
    ∧ entryContrib
        (⟨"@scope", true, none,
          [⟨"bar", some (some ⟨some "@scope/bar", some "2.0.0"⟩)⟩]⟩ : NMEntry)
      = (⟨"@scope", true, none,
          [⟨"bar", some (some ⟨some "@scope/bar", some "2.0.0"⟩)⟩]⟩ :
            NMEntry).subs.filterMap subRead :=
  ⟨⟨rfl, by decide⟩,
   c7_scoped_descend
     ⟨"@scope", true, none,
       [⟨"bar", some (some ⟨some "@scope/bar", some "2.0.0"⟩)⟩]⟩
     rfl (by decide)⟩

/-- C10: a dependency-directory entry whose name begins with a dot is
skipped entirely — removing it from the directory listing does not change
the result of the local enumerator at all, even if it carries a readable
manifest. -/
theorem c10_dot_entries_skipped (e : NMEntry) (pre post : List NMEntry)
    (code : Int) (out : String) (h : pyStartsWith e.name "." = true) :
    get_local_npm_list (some (pre ++ e :: post)) code out
      = get_local_npm_list (some (pre ++ post)) code out := by
  have hc : entryContrib e = [] := by
    unfold entryContrib
    rw [h]
    simp
  have hscan : scanEntries (pre ++ e :: post) = scanEntries (pre ++ post) := by
    unfold scanEntries
    simp only [List.foldl_append, List.foldl_cons, hc, List.foldl_nil]
  simp only [get_local_npm_list]
  rw [hscan]

/-- C10 witness: a dot-named entry with a perfectly readable manifest
contributes nothing. -/
theorem c10_dot_entries_skipped_witness :
    pyStartsWith
        (⟨".cache", true, some (some ⟨some "x", some "1"⟩), []⟩ : NMEntry).name "."
      = true
    ∧ get_local_npm_list
        (some ([] ++ (⟨".cache", true, some (some ⟨some "x", some "1"⟩), []⟩ :
          NMEntry) :: [])) 0 ""
      = get_local_npm_list (some ([] ++ [])) 0 "" :=
  ⟨by decide,
   c10_dot_entries_skipped ⟨".cache", true, some (some ⟨some "x", some "1"⟩), []⟩
     [] [] 0 "" (by decide)⟩

/-! ### Orchestrator (main, lines 157-199, and npm_available, lines 152-154)

The orchestrator is embedded over an environment carrying the outcomes of
its external probes: whether the CSV path is a file, the loaded impacted
entries, the npm -v probe outcome, and the already-enumerated installed
mappings of the global scope and of each discovered project (enumeration
itself is settled by C2/C6/C7/C10).  The result is the process exit code
together with the written report content: none when the process exits
before writing. -/

/-- Embedding of npm_available (lines 152-154): exit code 0 and non-empty
stdout. -/
def npm_available (code : Int) (out : String) : Bool :=
  code == 0 && !(pyStrip out == "")

/-- The external-world outcomes main observes. -/
structure MainEnv where
  csv_exists : Bool
  impacted : List Impacted
  npmCode : Int
  npmOut : String
  global_installed : List (String × String)
  projects : List (String × List (String × String))
deriving DecidableEq, Repr

/-- Embedding of main (lines 157-199): exit 1 before writing when the CSV
path is not a file or it loads to zero entries; write an empty report and
exit 0 when npm is unavailable; otherwise match the global scope and every
discovered project scope and write the accumulated findings, exiting 0. -/
def main (e : MainEnv) : Nat × Option (List Finding) :=
  if e.csv_exists = false then (1, none)
  else if e.impacted = [] then (1, none)
  else if npm_available e.npmCode e.npmOut = false then (0, some [])
  else
    (0, some (compare e.impacted e.global_installed "global"
      ++ e.projects.foldl (fun acc p =>
          acc ++ compare e.impacted p.2 ("local:" ++ p.1)) []))

/-- C9: the orchestrator exits with code 1 writing no report exactly when
the compromised-list file is missing or loads to zero usable entries;
with a usable list but no npm it writes a header-only (empty) report and
exits 0; every other completion — usable list, npm available, including
zero matches — writes the accumulated findings report (global scope then
each discovered project scope) and exits 0. -/
theorem c9_orchestrator (e : MainEnv) :
    (((main e).1 = 1 ∧ (main e).2 = none)
      ↔ (e.csv_exists = false ∨ e.impacted = [])) ∧
    (e.csv_exists = true → e.impacted ≠ [] →
      npm_available e.npmCode e.npmOut = false → main e = (0, some [])) ∧
    (e.csv_exists = true → e.impacted ≠ [] →
      npm_available e.npmCode e.npmOut = true →
      main e = (0, some (compare e.impacted e.global_installed "global"
        ++ e.projects.foldl (fun acc p =>
            acc ++ compare e.impacted p.2 ("local:" ++ p.1)) []))) ∧
    ((main e).1 = 1 ∨ (main e).1 = 0) := by
  unfold main
  by_cases h1 : e.csv_exists = false
  · simp [h1]
  · by_cases h2 : e.impacted = []
    · simp [h1, h2]
    · by_cases h3 : npm_available e.npmCode e.npmOut = false
      · simp [h1, h2, h3]
      · simp [h1, h2, h3]

/-- C9 witness: with a usable one-entry list — npm probe failing (empty
stdout) writes the empty report and exits 0; npm probe succeeding with one
global match (and no roots) writes the matched findings and exits 0. -/
theorem c9_orchestrator_witness :
    main ⟨true, [⟨"evil-pkg", "9.9.9"⟩], 0, "", [], []⟩ = (0, some []) ∧
    main ⟨true, [⟨"evil-pkg", "9.9.9"⟩], 0, "10.1.0",
        [("evil-pkg", "9.9.9"), ("safe-pkg", "1.0.0")], []⟩
      = (0, some (compare [⟨"evil-pkg", "9.9.9"⟩]
            [("evil-pkg", "9.9.9"), ("safe-pkg", "1.0.0")] "global"
          ++ ([] : List (String × List (String × String))).foldl (fun acc p =>
              acc ++ compare [⟨"evil-pkg", "9.9.9"⟩] p.2 ("local:" ++ p.1)) [])) :=
  ⟨(c9_orchestrator ⟨true, [⟨"evil-pkg", "9.9.9"⟩], 0, "", [], []⟩).2.1
      rfl (by decide) (by decide),
   (c9_orchestrator ⟨true, [⟨"evil-pkg", "9.9.9"⟩], 0, "10.1.0",
        [("evil-pkg", "9.9.9"), ("safe-pkg", "1.0.0")], []⟩).2.2.1
      rfl (by decide) (by decide)⟩

end NpmDetector
